import Mathlib

/-!
# NU Information Exchange System: central server and campus client

A shallow embedding of `server.cpp` (session registry, authenticator, message
router, liveness tracker, shutdown) and of the delivery-frame parser of
`client.cpp`, followed by theorems about them.

Conventions of the embedding.

* `std::string` is `Str = List Char`, one `Char` per byte.
* `std::map<K,V>` is `StdMap K V`, an association list kept in strictly
  increasing key order (the iteration order of `std::map`).
* A function that reads or writes the globals `connected_clients`,
  `socket_to_campus`, `server_running` takes and returns a `ServerState`.
* System calls that act on the outside world (`send`, `sendto`, `close`,
  `shutdown`, console output) are recorded, in program order, as a list of
  `Effect`; what a system call returns to the program (`recv` data, the success
  of `send`, the clock) is an argument of the embedding.
-/

namespace CampusServer

/-! ## Strings -/

/-- A `std::string`, byte by byte. -/
abbrev Str := List Char

/-- The line terminator of the wire protocol. -/
def NL : Char := Char.ofNat 10

/-- Carriage return. -/
def CR : Char := Char.ofNat 13

/-- The byte that ends a C string. -/
def NUL : Char := Char.ofNat 0

/-- The apostrophe used in one log line. -/
def QUOTE : Char := Char.ofNat 39

/-- The value `std::string::npos` for a 64-bit `size_t`. -/
def npos : Nat := 2 ^ 64 - 1

/-- The call `s.find(c, pos)`: index of the first `c` at or after `pos`, or `npos`. -/
def string_find (s : Str) (c : Char) (pos : Nat) : Nat :=
  if c ∈ s.drop pos then pos + ((s.drop pos).takeWhile (fun x => x ≠ c)).length else npos

/-- The call `s.substr(pos, len)` for `pos ≤ s.size()`. -/
def string_substr (s : Str) (pos len : Nat) : Str :=
  (s.drop pos).take len

/-- The call `s.substr(pos)` for `pos ≤ s.size()`. -/
def string_substr_from (s : Str) (pos : Nat) : Str :=
  s.drop pos

/-- The loop `while(getline(stream, token, delim))`: the tokens it yields, given the
unread rest of the stream and the characters of the token read so far. A `getline`
that meets the end of the stream before extracting any character fails and ends
the loop, so a final empty token is never produced. -/
def getline_tokens (delim : Char) : Str → Str → List Str
  | [], token => if token = [] then [] else [token]
  | c :: rest, token =>
    if c = delim then token :: getline_tokens delim rest []
    else getline_tokens delim rest (token ++ [c])

/-! ## `std::map` -/

/-- A `std::map<K,V>`: its entries in iteration order. -/
abbrev StdMap (K V : Type) := List (K × V)

namespace StdMap

variable {K V : Type}

/-- Well-formedness of a `std::map`: the keys are strictly increasing. -/
def WF [LinearOrder K] (m : StdMap K V) : Prop :=
  (m.map Prod.fst).Pairwise (fun a b => a < b)

instance [LinearOrder K] (m : StdMap K V) : Decidable (WF m) :=
  inferInstanceAs (Decidable ((m.map Prod.fst).Pairwise (fun a b => a < b)))

/-- The call `m.find(k)`; `none` stands for `m.end()`. -/
def find [DecidableEq K] : StdMap K V → K → Option V
  | [], _ => none
  | (k', v) :: rest, k => if k' = k then some v else find rest k

/-- The statement `m[k] = v`: overwrite the value of an existing key, or insert in key order. -/
def assign [LinearOrder K] : StdMap K V → K → V → StdMap K V
  | [], k, v => [(k, v)]
  | (k', v') :: rest, k, v =>
    if k < k' then (k, v) :: (k', v') :: rest
    else if k' < k then (k', v') :: assign rest k v
    else (k', v) :: rest

/-- The call `m.erase(k)`: remove the entry with key `k`, if there is one. -/
def erase [DecidableEq K] : StdMap K V → K → StdMap K V
  | [], _ => []
  | (k', v) :: rest, k => if k' = k then rest else (k', v) :: erase rest k

/-- An in-place update `it->second = f(it->second)` of the entry with key `k`. -/
def modify [DecidableEq K] : StdMap K V → K → (V → V) → StdMap K V
  | [], _, _ => []
  | (k', v) :: rest, k, f => if k' = k then (k', f v) :: rest else (k', v) :: modify rest k f

/-- The call `m.size()`. -/
def size (m : StdMap K V) : Nat := m.length

/-- The number of entries of `m` whose key is `k`. -/
def entries_for [DecidableEq K] (m : StdMap K V) (k : K) : Nat :=
  (m.filter (fun e => decide (e.1 = k))).length

end StdMap

/-! ## Server data -/

/-- The fields of a `sockaddr_in` that identify a datagram endpoint. -/
structure sockaddr_in where
  sin_addr : Nat
  sin_port : Nat
deriving DecidableEq

/-- The value-initialised `sockaddr_in{}`. -/
def sockaddr_in.zero : sockaddr_in := ⟨0, 0⟩

/-- The record `struct ClientInfo`. -/
structure ClientInfo where
  tcp_sock : Int
  campus : Str
  department : Str
  udp_addr : sockaddr_in
  has_udp : Bool
  last_seen : Str
deriving DecidableEq

/-- The mutable globals of the server. -/
structure ServerState where
  connected_clients : StdMap Str ClientInfo
  socket_to_campus : StdMap Int Str
  server_running : Bool
deriving DecidableEq

/-- The globals as initialised at program start. -/
def ServerState.initial : ServerState := ⟨[], [], true⟩

/-- The hard-coded credentials `campus_credentials`, in key order. -/
def campus_credentials : StdMap Str Str :=
  [("CFD".toList, "NU-CFD-123".toList),
   ("Karachi".toList, "NU-KHI-123".toList),
   ("Lahore".toList, "NU-LHR-123".toList),
   ("Multan".toList, "NU-MLT-123".toList),
   ("Peshawar".toList, "NU-PEW-123".toList)]

/-- The macro `BUFFER_SIZE`. -/
def BUFFER_SIZE : Nat := 8192

/-- What the program does to the outside world. -/
inductive Effect where
  | send (socket : Int) (bytes : Str)
  | close (socket : Int)
  | shutdown (socket : Int)
  | sendto (addr : sockaddr_in) (bytes : Str)
  | log (message : Str)
  | print (text : Str)
deriving DecidableEq

/-- The stream writes among a list of effects, in order. -/
def stream_writes : List Effect → List (Int × Str)
  | [] => []
  | Effect.send s b :: rest => (s, b) :: stream_writes rest
  | _ :: rest => stream_writes rest

/-- The datagram sends among a list of effects, in order. -/
def datagram_sends : List Effect → List (sockaddr_in × Str)
  | [] => []
  | Effect.sendto a b :: rest => (a, b) :: datagram_sends rest
  | _ :: rest => datagram_sends rest

/-- The call `recv(sock, buffer, BUFFER_SIZE - 1, 0)` on a stream whose unread bytes are
`pending`: the bytes placed in `buffer`. The empty result stands for `bytes_received <= 0`. -/
def recv_buffer (pending : Str) : Str := pending.take (BUFFER_SIZE - 1)

/-- The statements `buffer[bytes_received] = 0; string s(buffer);`: the bytes before the first NUL. -/
def c_string (buffer : Str) : Str := buffer.takeWhile (fun x => x ≠ NUL)

/-- The function `send_tcp_message`: one `send` of `message` plus a newline; the result is
whether `send` returned a positive count, which the environment `send_ok` decides. -/
def send_tcp_message (send_ok : Int → Str → Bool) (socket : Int) (message : Str) :
    Bool × List Effect :=
  let formatted_msg := message ++ [NL]
  (send_ok socket formatted_msg, [Effect.send socket formatted_msg])

/-- The function `route_campus_message`. -/
def route_campus_message (send_ok : Int → Str → Bool) (st : ServerState)
    (source_campus source_dept target_campus message_text : Str) :
    ServerState × List Effect :=
  match StdMap.find st.connected_clients target_campus with
  | none =>
    (st, [Effect.log ("Routing failed: Campus ".toList ++ [QUOTE] ++ target_campus ++
        [QUOTE] ++ " is not connected.".toList)])
  | some target_client =>
    let target_socket := target_client.tcp_sock
    let formatted_message :=
      "FROM:".toList ++ source_campus ++ ":".toList ++ source_dept ++ ":".toList ++ message_text
    let sent := send_tcp_message send_ok target_socket formatted_message
    if sent.1 then
      (st, sent.2 ++ [Effect.log ("Message routed from ".toList ++ source_campus ++
        " to ".toList ++ target_campus)])
    else
      (st, sent.2 ++ [Effect.log ("Failed to send message to ".toList ++ target_campus)])

/-! ## Authentication -/

/-- The three locals `campus_name`, `password`, `department` of `handle_campus_client`. -/
structure AuthFields where
  campus_name : Str
  password : Str
  department : Str
deriving DecidableEq

/-- The body of the token loop of `handle_campus_client` for one token. -/
def parse_auth_token (f : AuthFields) (token : Str) : AuthFields :=
  let colon_pos := string_find token ':' 0
  if colon_pos = npos then f
  else
    let key := string_substr token 0 colon_pos
    let value := string_substr_from token (colon_pos + 1)
    if key = "Campus".toList then { f with campus_name := value }
    else if key = "Pass".toList then { f with password := value }
    else if key = "Dept".toList then { f with department := value }
    else f

/-- The token loop of `handle_campus_client` over the whole of `auth_data`. -/
def parse_auth (auth_data : Str) : AuthFields :=
  (getline_tokens ',' auth_data []).foldl parse_auth_token ⟨[], [], []⟩

/-- How the authentication part of `handle_campus_client` ends. -/
inductive AuthOutcome where
  | NoData
  | MissingCredential
  | InvalidCredential
  | Authenticated (campus_name department : Str)
deriving DecidableEq

/-- State, effects and outcome of the authentication part of `handle_campus_client`. -/
structure AuthStep where
  state : ServerState
  effects : List Effect
  outcome : AuthOutcome
deriving DecidableEq

/-- The function `handle_campus_client` from its entry to the reply `AUTH_OK` (or to the
early return after a rejection). `pending` is what the peer has sent when the first `recv`
runs and `now` is the value of `get_current_time()`. -/
def handle_campus_client_auth (st : ServerState) (client_socket : Int) (pending now : Str) :
    AuthStep :=
  let received := recv_buffer pending
  if received = [] then
    ⟨st, [Effect.close client_socket], AuthOutcome.NoData⟩
  else
    let auth_data := c_string received
    let f := parse_auth auth_data
    if f.campus_name = [] ∨ f.password = [] then
      ⟨st, [Effect.send client_socket ("AUTH_FAIL:Missing credentials".toList ++ [NL]),
            Effect.close client_socket], AuthOutcome.MissingCredential⟩
    else
      match StdMap.find campus_credentials f.campus_name with
      | none =>
        ⟨st, [Effect.send client_socket ("AUTH_FAIL:Invalid credentials".toList ++ [NL]),
              Effect.close client_socket], AuthOutcome.InvalidCredential⟩
      | some secret =>
        if secret ≠ f.password then
          ⟨st, [Effect.send client_socket ("AUTH_FAIL:Invalid credentials".toList ++ [NL]),
                Effect.close client_socket], AuthOutcome.InvalidCredential⟩
        else
          let department := if f.department = [] then "General".toList else f.department
          let client_info : ClientInfo :=
            { tcp_sock := client_socket, campus := f.campus_name, department := department,
              udp_addr := sockaddr_in.zero, has_udp := false, last_seen := now }
          ⟨{ st with
              connected_clients := StdMap.assign st.connected_clients f.campus_name client_info,
              socket_to_campus := StdMap.assign st.socket_to_campus client_socket f.campus_name },
           [Effect.log ("Campus authenticated: ".toList ++ f.campus_name ++ " (Dept: ".toList ++
              department ++ ")".toList),
            Effect.send client_socket ("AUTH_OK:".toList ++ f.campus_name ++ [NL])],
           AuthOutcome.Authenticated f.campus_name department⟩

/-! ## The session loop and teardown -/

/-- The body of the read loop of `handle_campus_client` once `recv` has returned the
non-empty `received`: strip line terminators, and forward a `SEND:` frame to the router
with the source resolved from the registry by `client_socket`. -/
def handle_campus_client_frame (send_ok : Int → Str → Bool) (st : ServerState)
    (client_socket : Int) (received : Str) : ServerState × List Effect :=
  let message := c_string received
  let message := message.filter (fun x => x ≠ CR)
  let message := message.filter (fun x => x ≠ NL)
  -- `message.find("SEND:") == 0` holds exactly when `message` starts with `SEND:`
  if "SEND:".toList.isPrefixOf message then
    let payload := string_substr_from message 5
    let first_colon := string_find payload ':' 0
    let second_colon := string_find payload ':' ((first_colon + 1) % 2 ^ 64)
    if first_colon ≠ npos ∧ second_colon ≠ npos then
      let target_campus := string_substr payload 0 first_colon
      -- `target_dept` is computed by the source and never used
      let message_text := string_substr_from payload (second_colon + 1)
      let source_campus : Str :=
        match StdMap.find st.socket_to_campus client_socket with
        | some campus => campus
        | none => []
      let source_dept : Str :=
        match StdMap.find st.socket_to_campus client_socket with
        | some campus =>
          match StdMap.find st.connected_clients campus with
          | some info => info.department
          | none => []
        | none => []
      if target_campus ≠ [] then
        route_campus_message send_ok st source_campus source_dept target_campus message_text
      else (st, [])
    else (st, [])
  else (st, [])

/-- What one pass of a `select` loop observes. -/
inductive LoopEvent where
  /-- `select` timed out, or failed with `EINTR`. -/
  | idle
  /-- `select` failed with another error. -/
  | select_failed
  /-- The socket is readable and `pending` is what `recv` can take; empty for `recv <= 0`. -/
  | readable (pending : Str)
deriving DecidableEq

/-- The read loop of `handle_campus_client`, run without interleaving over the passes
`events`; after the last of them the peer closes the stream. -/
def handle_campus_client_loop (send_ok : Int → Str → Bool) (client_socket : Int) :
    ServerState → List LoopEvent → ServerState × List Effect
  | st, [] => (st, [])
  | st, ev :: rest =>
    if st.server_running = false then (st, [])
    else
      match ev with
      | LoopEvent.idle => handle_campus_client_loop send_ok client_socket st rest
      | LoopEvent.select_failed => (st, [])
      | LoopEvent.readable pending =>
        let received := recv_buffer pending
        if received = [] then (st, [])
        else
          let r := handle_campus_client_frame send_ok st client_socket received
          let r2 := handle_campus_client_loop send_ok client_socket r.1 rest
          (r2.1, r.2 ++ r2.2)

/-- The block `Cleanup on disconnect` of `handle_campus_client`, with the final `close`. -/
def handle_campus_client_cleanup (st : ServerState) (client_socket : Int) :
    ServerState × List Effect :=
  match StdMap.find st.socket_to_campus client_socket with
  | some campus =>
    ({ st with
        connected_clients := StdMap.erase st.connected_clients campus,
        socket_to_campus := StdMap.erase st.socket_to_campus client_socket },
     [Effect.log ("Campus disconnected: ".toList ++ campus), Effect.close client_socket])
  | none => (st, [Effect.close client_socket])

/-- The function `handle_campus_client`, run without interleaving: authentication, then,
only when it succeeded, the read loop and the teardown. -/
def handle_campus_client (send_ok : Int → Str → Bool) (st : ServerState) (client_socket : Int)
    (pending now : Str) (events : List LoopEvent) : ServerState × List Effect :=
  let a := handle_campus_client_auth st client_socket pending now
  match a.outcome with
  | AuthOutcome.Authenticated _ _ =>
    let l := handle_campus_client_loop send_ok client_socket a.state events
    let c := handle_campus_client_cleanup l.1 client_socket
    (c.1, a.effects ++ l.2 ++ c.2)
  | _ => (a.state, a.effects)

/-! ## Heartbeats -/

/-- The body of `udp_server_loop` for one datagram `received` from `client_addr`
(empty for `bytes_received <= 0`). -/
def udp_server_datagram (st : ServerState) (received : Str) (client_addr : sockaddr_in)
    (now : Str) : ServerState × List Effect :=
  if received.take (BUFFER_SIZE - 1) = [] then (st, [])
  else
    let message := c_string (received.take (BUFFER_SIZE - 1))
    if "HEARTBEAT:".toList.isPrefixOf message then
      let campus_name := string_substr_from message 10
      match StdMap.find st.connected_clients campus_name with
      | some _ =>
        ({ st with
            connected_clients := StdMap.modify st.connected_clients campus_name
              (fun info => { info with udp_addr := client_addr, has_udp := true,
                                       last_seen := now }) },
         [Effect.log ("Heartbeat from ".toList ++ campus_name)])
      | none => (st, [])
    else (st, [])

/-! ## The admin console -/

/-- The lines printed by `list` for the entries of `connected_clients`. -/
def list_lines : StdMap Str ClientInfo → List Effect
  | [] => []
  | (name, info) :: rest =>
    Effect.print ("Campus: ".toList ++ name ++ " | Department: ".toList ++ info.department ++
      [NL] ++ "Last seen: ".toList ++ info.last_seen ++
      (if info.has_udp then " [UDP Active]".toList else []) ++
      [NL] ++ "----------------------------------------".toList ++ [NL]) :: list_lines rest

/-- The `sendto` loop of `broadcast:` over the entries of `connected_clients`. -/
def broadcast_sends (broadcast_msg : Str) : StdMap Str ClientInfo → List Effect
  | [] => []
  | (_, info) :: rest =>
    if info.has_udp then Effect.sendto info.udp_addr broadcast_msg :: broadcast_sends broadcast_msg rest
    else broadcast_sends broadcast_msg rest

/-- The counter `sent_count` of `broadcast:` after the loop. -/
def broadcast_count : StdMap Str ClientInfo → Nat
  | [] => 0
  | (_, info) :: rest => if info.has_udp then broadcast_count rest + 1 else broadcast_count rest

/-- The `shutdown` and `close` calls of `quit` over the entries of `connected_clients`. -/
def quit_closes : StdMap Str ClientInfo → List Effect
  | [] => []
  | (_, info) :: rest =>
    if info.tcp_sock ≠ -1 then
      Effect.shutdown info.tcp_sock :: Effect.close info.tcp_sock :: quit_closes rest
    else quit_closes rest

/-- The prompt printed at the end of a pass of the console loop. -/
def admin_prompt (st : ServerState) : List Effect :=
  if st.server_running then [Effect.print ([NL] ++ "admin> ".toList)] else []

/-- One pass of the loop of `admin_console` for the input line `command`. -/
def admin_command (st : ServerState) (command : Str) : ServerState × List Effect :=
  if command = "list".toList then
    (st, [Effect.print ([NL] ++ "--- Connected Campuses ---".toList ++ [NL])] ++
      (if st.connected_clients = [] then [Effect.print ("No campuses connected.".toList ++ [NL])]
       else list_lines st.connected_clients) ++
      [Effect.print ("Total connected: ".toList ++
        (Nat.repr (StdMap.size st.connected_clients)).toList ++ [NL])] ++ admin_prompt st)
  else if "broadcast:".toList.isPrefixOf command then
    let broadcast_msg := string_substr_from command 10
    if broadcast_msg = [] then
      (st, [Effect.print ("Error: Broadcast message cannot be empty.".toList ++ [NL])])
    else
      let sent_count := broadcast_count st.connected_clients
      (st, broadcast_sends broadcast_msg st.connected_clients ++
        [Effect.log ("Broadcast sent to ".toList ++ (Nat.repr sent_count).toList ++
            " campuses: ".toList ++ broadcast_msg),
         Effect.print ("Broadcast sent to ".toList ++ (Nat.repr sent_count).toList ++
            " campuses.".toList ++ [NL])] ++ admin_prompt st)
  else if command = "quit".toList then
    ({ connected_clients := [], socket_to_campus := [], server_running := false },
     [Effect.print ([NL] ++ "Shutting down server...".toList ++ [NL])] ++
       quit_closes st.connected_clients ++ [Effect.log "Server shutdown initiated.".toList])
  else if command = "help".toList then
    (st, [Effect.print ([NL] ++ "Available commands:".toList ++ [NL]),
          Effect.print ("  list                    - Show all connected campuses".toList ++ [NL]),
          Effect.print ("  broadcast:<message>     - Send message to all campuses".toList ++ [NL]),
          Effect.print ("  quit                    - Stop the server".toList ++ [NL]),
          Effect.print ("  help                    - Show this help message".toList ++ [NL])] ++
      admin_prompt st)
  else if command ≠ [] then
    (st, [Effect.print ("Unknown command. Type ".toList ++ [QUOTE] ++ "help".toList ++ [QUOTE] ++
      " for available commands.".toList ++ [NL])] ++ admin_prompt st)
  else (st, admin_prompt st)

/-! ## Reachable states -/

/-- One atomic update of the registry: each constructor is one critical section
(or one lock-free path) of a server thread. -/
inductive Step : ServerState → ServerState → Prop where
  | auth (st : ServerState) (client_socket : Int) (pending now : Str) :
      Step st (handle_campus_client_auth st client_socket pending now).state
  | frame (send_ok : Int → Str → Bool) (st : ServerState) (client_socket : Int) (received : Str) :
      Step st (handle_campus_client_frame send_ok st client_socket received).1
  | cleanup (st : ServerState) (client_socket : Int) :
      Step st (handle_campus_client_cleanup st client_socket).1
  | datagram (st : ServerState) (received : Str) (client_addr : sockaddr_in) (now : Str) :
      Step st (udp_server_datagram st received client_addr now).1
  | admin (st : ServerState) (command : Str) :
      Step st (admin_command st command).1

/-- The states the server can be in: those reached from the initial one by atomic updates. -/
inductive Reachable : ServerState → Prop where
  | initial : Reachable ServerState.initial
  | step {st st2 : ServerState} : Reachable st → Step st st2 → Reachable st2

/-- The two indices correspond: `socket_to_campus` maps `h` to `I` exactly when
`connected_clients` has an entry for `I` whose stream handle is `h`. -/
def indices_correspond (st : ServerState) : Prop :=
  ∀ (h : Int) (I : Str),
    StdMap.find st.socket_to_campus h = some I ↔
      ∃ info, StdMap.find st.connected_clients I = some info ∧ info.tcp_sock = h

end CampusServer

/-! ## The campus client -/

namespace CampusClient

open CampusServer

/-- The delivery-frame parser of `receive_tcp_messages`: the triple
`(from_campus, from_dept, message)` it prints, or `none` when it prints the raw frame. -/
def receive_tcp_message (received : Str) : Option (Str × Str × Str) :=
  let msg := c_string received
  if "FROM:".toList.isPrefixOf msg then
    let colon1 := string_find msg ':' 5
    let colon2 := string_find msg ':' ((colon1 + 1) % 2 ^ 64)
    let colon3 := string_find msg ':' ((colon2 + 1) % 2 ^ 64)
    if colon1 ≠ npos ∧ colon2 ≠ npos ∧ colon3 ≠ npos then
      some (string_substr msg 5 (colon1 - 5),
            string_substr msg (colon1 + 1) (colon2 - colon1 - 1),
            string_substr_from msg (colon3 + 1))
    else none
  else none

/-- The authentication frame built in `main` of the client. -/
def auth_frame (campus_name department password : Str) : Str :=
  "Campus:".toList ++ campus_name ++ ",Pass:".toList ++ password ++ ",Dept:".toList ++
    department ++ [NL]

end CampusClient

namespace CampusServer

/-! ## A reconnect scenario -/

/-- The frame a Lahore client of department `CS` sends to authenticate. -/
def lahore_frame : Str :=
  CampusClient.auth_frame "Lahore".toList "CS".toList "NU-LHR-123".toList

/-- The state after Lahore authenticates on connection 4 and then, with connection 4 still
open, authenticates again on connection 5. -/
def lahore_twice : ServerState :=
  (handle_campus_client_auth
    (handle_campus_client_auth ServerState.initial 4 lahore_frame "t0".toList).state
    5 lahore_frame "t1".toList).state

/-- The state after Lahore authenticates on connection 4 with department `CS`, then, with
connection 4 still open, on connection 5 with department `IT`, and Karachi authenticates on
connection 6 with department `HR`. -/
def lahore_cs_then_it : ServerState :=
  (handle_campus_client_auth
    (handle_campus_client_auth
      (handle_campus_client_auth ServerState.initial 4
        (CampusClient.auth_frame "Lahore".toList "CS".toList "NU-LHR-123".toList)
        "t0".toList).state
      5 (CampusClient.auth_frame "Lahore".toList "IT".toList "NU-LHR-123".toList)
      "t1".toList).state
    6 (CampusClient.auth_frame "Karachi".toList "HR".toList "NU-KHI-123".toList)
    "t2".toList).state

end CampusServer

namespace CampusServer

/-! ## Reference definition of heartbeat handling -/

/-- Heartbeat handling in the words of the specification: a no-op when `identity` is not
registered; otherwise the session of `identity` gets the datagram endpoint, the flag
`has_udp` and the current time as `last_seen`, and nothing else changes. -/
def onHeartbeat_reference (st : ServerState) (identity : Str) (endpoint : sockaddr_in)
    (now : Str) : ServerState :=
  match StdMap.find st.connected_clients identity with
  | none => st
  | some session =>
    { st with
      connected_clients := StdMap.assign st.connected_clients identity
        { session with udp_addr := endpoint, has_udp := true, last_seen := now } }

end CampusServer

/-! # Theorems -/

namespace CampusServer

/-! ## Lemmas on `std::map` -/

namespace StdMap

variable {K V : Type}

theorem find_assign_self [DecidableEq K] [LinearOrder K] (m : StdMap K V) (k : K) (v : V) :
    find (assign m k v) k = some v := by
  induction m with
  | nil => simp [assign, find]
  | cons e rest ih =>
    obtain ⟨k', v'⟩ := e
    simp only [assign]
    split_ifs with h1 h2
    · simp [find]
    · simp [find, ne_of_lt h2, ih]
    · have hk : k' = k := le_antisymm (not_lt.mp h1) (not_lt.mp h2)
      simp [find, hk]

theorem find_assign_other [DecidableEq K] [LinearOrder K] (m : StdMap K V) (k k2 : K) (v : V)
    (hne : k2 ≠ k) : find (assign m k v) k2 = find m k2 := by
  induction m with
  | nil => simp [assign, find, Ne.symm hne]
  | cons e rest ih =>
    obtain ⟨k', v'⟩ := e
    simp only [assign]
    split_ifs with h1 h2
    · simp [find, Ne.symm hne]
    · simp [find, ih]
    · have hk : k' = k := le_antisymm (not_lt.mp h1) (not_lt.mp h2)
      simp [find, hk, Ne.symm hne]

theorem entries_for_eq_zero [DecidableEq K] [LinearOrder K] (m : StdMap K V) (k : K)
    (h : ∀ a ∈ m.map Prod.fst, k < a) : entries_for m k = 0 := by
  simp only [entries_for, List.length_eq_zero, List.filter_eq_nil_iff]
  intro e he
  have : k < e.1 := h e.1 (List.mem_map_of_mem _ he)
  simp [ne_of_gt this]

theorem find_eq_none_of_lt [DecidableEq K] [LinearOrder K] (m : StdMap K V) (k : K)
    (h : ∀ a ∈ m.map Prod.fst, k < a) : find m k = none := by
  induction m with
  | nil => rfl
  | cons e rest ih =>
    obtain ⟨k', v'⟩ := e
    have h1 : k < k' := h k' (by simp)
    have h2 : ∀ a ∈ rest.map Prod.fst, k < a := fun a ha => h a (by simp at ha ⊢; exact Or.inr ha)
    simp [find, ne_of_gt h1, ih h2]

theorem wf_tail [LinearOrder K] {e : K × V} {rest : StdMap K V} (h : WF (e :: rest)) :
    WF rest := by
  simp only [WF, List.map_cons, List.pairwise_cons] at h
  exact h.2

theorem wf_head_lt [LinearOrder K] {e : K × V} {rest : StdMap K V} (h : WF (e :: rest)) :
    ∀ a ∈ rest.map Prod.fst, e.1 < a := by
  simp only [WF, List.map_cons, List.pairwise_cons] at h
  exact h.1

theorem entries_for_cons [DecidableEq K] (k' : K) (v' : V) (rest : StdMap K V) (k : K) :
    entries_for ((k', v') :: rest) k = (if k' = k then 1 else 0) + entries_for rest k := by
  by_cases h : k' = k
  · simp [entries_for, List.filter_cons, h, Nat.add_comm]
  · simp [entries_for, List.filter_cons, h]

theorem entries_for_assign [DecidableEq K] [LinearOrder K] (m : StdMap K V) (hwf : WF m)
    (k : K) (v : V) : entries_for (assign m k v) k = 1 := by
  induction m with
  | nil => simp [assign, entries_for]
  | cons e rest ih =>
    obtain ⟨k', v'⟩ := e
    have hlt := wf_head_lt hwf
    simp only [assign]
    split_ifs with h1 h2
    · have h0 : entries_for ((k', v') :: rest) k = 0 := by
        apply entries_for_eq_zero
        intro a ha
        simp only [List.map_cons, List.mem_cons] at ha
        rcases ha with rfl | ha
        · exact h1
        · exact lt_trans h1 (hlt a ha)
      rw [entries_for_cons, h0]
      simp
    · rw [entries_for_cons, ih (wf_tail hwf)]
      simp [ne_of_lt h2]
    · have hk : k' = k := le_antisymm (not_lt.mp h1) (not_lt.mp h2)
      have h0 : entries_for rest k = 0 := by
        apply entries_for_eq_zero
        intro a ha
        exact hk ▸ hlt a ha
      rw [entries_for_cons, h0]
      simp [hk]

theorem size_assign_of_find [DecidableEq K] [LinearOrder K] (m : StdMap K V) (hwf : WF m)
    (k : K) (v w : V) (hfind : find m k = some w) : size (assign m k v) = size m := by
  induction m with
  | nil => simp [find] at hfind
  | cons e rest ih =>
    obtain ⟨k', v'⟩ := e
    have hlt := wf_head_lt hwf
    simp only [assign]
    split_ifs with h1 h2
    · exfalso
      have : find ((k', v') :: rest) k = none := by
        apply find_eq_none_of_lt
        intro a ha
        simp only [List.map_cons, List.mem_cons] at ha
        rcases ha with rfl | ha
        · exact h1
        · exact lt_trans h1 (hlt a ha)
      rw [this] at hfind
      exact Option.noConfusion hfind
    · have hne : k' ≠ k := ne_of_lt h2
      simp only [find, hne, if_false] at hfind
      have := ih (wf_tail hwf) hfind
      simp only [size, List.length_cons] at this ⊢
      omega
    · simp [size]

theorem wf_assign [LinearOrder K] (m : StdMap K V) (hwf : WF m) (k : K) (v : V) :
    WF (assign m k v) ∧ ∀ b, (∀ a ∈ m.map Prod.fst, b < a) → b < k →
      ∀ a ∈ (assign m k v).map Prod.fst, b < a := by
  induction m with
  | nil =>
    refine ⟨by simp [assign, WF], ?_⟩
    intro b _ hb a ha
    simp [assign] at ha
    exact ha ▸ hb
  | cons e rest ih =>
    obtain ⟨k', v'⟩ := e
    have hlt := wf_head_lt hwf
    have ih2 := ih (wf_tail hwf)
    simp only [assign]
    split_ifs with h1 h2
    · refine ⟨?_, ?_⟩
      · simp only [WF, List.map_cons, List.pairwise_cons]
        refine ⟨?_, ?_⟩
        · intro a ha
          simp only [List.mem_cons] at ha
          rcases ha with rfl | ha
          · exact h1
          · exact lt_trans h1 (hlt a ha)
        · simpa [WF] using hwf
      · intro b hb hbk a ha
        simp only [List.map_cons, List.mem_cons] at ha
        rcases ha with rfl | ha
        · exact hbk
        · exact hb a (by simpa using ha)
    · refine ⟨?_, ?_⟩
      · simp only [WF, List.map_cons, List.pairwise_cons]
        exact ⟨ih2.2 k' hlt h2, ih2.1⟩
      · intro b hb hbk a ha
        simp only [List.map_cons, List.mem_cons] at ha
        rcases ha with rfl | ha
        · exact hb _ (by simp)
        · exact ih2.2 b (fun a ha => hb a (by simp [ha])) hbk a ha
    · refine ⟨?_, ?_⟩
      · simpa [WF] using hwf
      · intro b hb hbk a ha
        exact hb a (by simpa using ha)

end StdMap

/-! ## Lemmas on the tokenizer and the credential parser -/

theorem getline_tokens_delim (d : Char) (a rest : Str) (h : d ∉ a) (tok : Str) :
    getline_tokens d (a ++ d :: rest) tok = (tok ++ a) :: getline_tokens d rest [] := by
  induction a generalizing tok with
  | nil => simp [getline_tokens]
  | cons x xs ih =>
    have hx : x ≠ d := fun e => h (by simp [e])
    have hxs : d ∉ xs := fun e => h (by simp [e])
    simp [getline_tokens, hx, ih hxs]

theorem getline_tokens_end (d : Char) (a : Str) (h : d ∉ a) (tok : Str) (hne : tok ++ a ≠ []) :
    getline_tokens d a tok = [tok ++ a] := by
  induction a generalizing tok with
  | nil => simpa [getline_tokens] using hne
  | cons x xs ih =>
    have hx : x ≠ d := fun e => h (by simp [e])
    have hxs : d ∉ xs := fun e => h (by simp [e])
    simp [getline_tokens, hx, ih hxs]

theorem parse_auth_token_campus (f : AuthFields) (v : Str) :
    parse_auth_token f ("Campus:".toList ++ v) = { f with campus_name := v } := by
  simp [parse_auth_token, string_find, string_substr, string_substr_from, npos]

theorem parse_auth_token_pass (f : AuthFields) (v : Str) :
    parse_auth_token f ("Pass:".toList ++ v) = { f with password := v } := by
  simp [parse_auth_token, string_find, string_substr, string_substr_from, npos]

theorem parse_auth_token_dept (f : AuthFields) (v : Str) :
    parse_auth_token f ("Dept:".toList ++ v) = { f with department := v } := by
  simp [parse_auth_token, string_find, string_substr, string_substr_from, npos]

/-- The parser on three comma-free tokens separated by commas, the last one non-empty. -/
theorem parse_auth_three_tokens (t1 t2 t3 : Str) (h1 : ',' ∉ t1) (h2 : ',' ∉ t2)
    (h3 : ',' ∉ t3) (hne : t3 ≠ []) :
    parse_auth (t1 ++ ',' :: (t2 ++ ',' :: t3)) =
      parse_auth_token (parse_auth_token (parse_auth_token ⟨[], [], []⟩ t1) t2) t3 := by
  have h4 : ([] : Str) ++ t3 ≠ [] := by simpa using hne
  unfold parse_auth
  rw [getline_tokens_delim _ _ _ h1, getline_tokens_delim _ _ _ h2,
    getline_tokens_end _ _ h3 _ h4]
  simp only [List.nil_append, List.foldl_cons, List.foldl_nil]

theorem not_mem_field (key v : Str) (hk : ',' ∉ key) (hv : ',' ∉ v) : ',' ∉ key ++ v := by
  simp only [List.mem_append, not_or]
  exact ⟨hk, hv⟩

/-- The parser on a text of three comma-free fields in the order the client sends them. -/
theorem parse_auth_client_order (I S X : Str) (hI : ',' ∉ I) (hS : ',' ∉ S) (hX : ',' ∉ X) :
    parse_auth (("Campus:".toList ++ I) ++ ',' :: (("Pass:".toList ++ S) ++
      ',' :: ("Dept:".toList ++ X))) = ⟨I, S, X⟩ := by
  rw [parse_auth_three_tokens _ _ _ (not_mem_field _ _ (by decide) hI)
    (not_mem_field _ _ (by decide) hS) (not_mem_field _ _ (by decide) hX) (by simp)]
  simp only [parse_auth_token_campus, parse_auth_token_pass, parse_auth_token_dept]

/-- Without a line terminator the parser does not depend on the order of the three fields:
each of the other five orders parses to the same identity, secret and department. -/
theorem parse_auth_unterminated_any_order (I S D : Str) (hI : ',' ∉ I) (hS : ',' ∉ S)
    (hD : ',' ∉ D) :
    parse_auth (("Campus:".toList ++ I) ++ ',' :: (("Dept:".toList ++ D) ++
      ',' :: ("Pass:".toList ++ S))) = ⟨I, S, D⟩ ∧
    parse_auth (("Pass:".toList ++ S) ++ ',' :: (("Campus:".toList ++ I) ++
      ',' :: ("Dept:".toList ++ D))) = ⟨I, S, D⟩ ∧
    parse_auth (("Pass:".toList ++ S) ++ ',' :: (("Dept:".toList ++ D) ++
      ',' :: ("Campus:".toList ++ I))) = ⟨I, S, D⟩ ∧
    parse_auth (("Dept:".toList ++ D) ++ ',' :: (("Campus:".toList ++ I) ++
      ',' :: ("Pass:".toList ++ S))) = ⟨I, S, D⟩ ∧
    parse_auth (("Dept:".toList ++ D) ++ ',' :: (("Pass:".toList ++ S) ++
      ',' :: ("Campus:".toList ++ I))) = ⟨I, S, D⟩ := by
  have hc := not_mem_field "Campus:".toList I (by decide) hI
  have hp := not_mem_field "Pass:".toList S (by decide) hS
  have hd := not_mem_field "Dept:".toList D (by decide) hD
  refine ⟨?_, ?_, ?_, ?_, ?_⟩
  · rw [parse_auth_three_tokens _ _ _ hc hd hp (by simp)]
    simp only [parse_auth_token_campus, parse_auth_token_pass, parse_auth_token_dept]
  · rw [parse_auth_three_tokens _ _ _ hp hc hd (by simp)]
    simp only [parse_auth_token_campus, parse_auth_token_pass, parse_auth_token_dept]
  · rw [parse_auth_three_tokens _ _ _ hp hd hc (by simp)]
    simp only [parse_auth_token_campus, parse_auth_token_pass, parse_auth_token_dept]
  · rw [parse_auth_three_tokens _ _ _ hd hc hp (by simp)]
    simp only [parse_auth_token_campus, parse_auth_token_pass, parse_auth_token_dept]
  · rw [parse_auth_three_tokens _ _ _ hd hp hc (by simp)]
    simp only [parse_auth_token_campus, parse_auth_token_pass, parse_auth_token_dept]

theorem c_string_append (p x : Str) (hp : NUL ∉ p) : c_string (p ++ x) = p ++ c_string x := by
  unfold c_string
  apply List.takeWhile_append_of_pos
  intro a ha
  have : a ≠ NUL := fun e => hp (e ▸ ha)
  simpa using this

theorem recv_buffer_append (p x : Str) (hp : p.length ≤ BUFFER_SIZE - 1) :
    recv_buffer (p ++ x) = p ++ x.take (BUFFER_SIZE - 1 - p.length) := by
  unfold recv_buffer
  rw [List.take_append_eq_append_take, List.take_of_length_le hp]

theorem not_mem_c_string_take (ch : Char) (x : Str) (n : Nat) (h : ch ∉ x) :
    ch ∉ c_string (x.take n) := by
  intro hmem
  exact h (List.mem_of_mem_take ((List.takeWhile_sublist _).subset hmem))

/-- Every entry of `campus_credentials` has a short, non-empty name and secret free of
commas and NUL bytes. -/
theorem campus_credentials_entry (I S : Str) (h : StdMap.find campus_credentials I = some S) :
    I ≠ [] ∧ S ≠ [] ∧ ',' ∉ I ∧ ',' ∉ S ∧ NUL ∉ I ∧ NUL ∉ S ∧ I.length ≤ 8 ∧ S.length = 10 := by
  simp only [campus_credentials, StdMap.find] at h
  split_ifs at h with h1 h2 h3 h4 h5
  · cases h; subst h1; decide
  · cases h; subst h2; decide
  · cases h; subst h3; decide
  · cases h; subst h4; decide
  · cases h; subst h5; decide

/-! ## Lemmas on the authentication step -/

/-- The accepting path of `handle_campus_client_auth`. -/
theorem auth_accept (st : ServerState) (c : Int) (pending now : Str) (f : AuthFields)
    (hne : recv_buffer pending ≠ [])
    (hf : parse_auth (c_string (recv_buffer pending)) = f)
    (hc : f.campus_name ≠ []) (hp : f.password ≠ [])
    (hcred : StdMap.find campus_credentials f.campus_name = some f.password) :
    handle_campus_client_auth st c pending now =
      ⟨{ st with
          connected_clients := StdMap.assign st.connected_clients f.campus_name
            { tcp_sock := c, campus := f.campus_name,
              department := if f.department = [] then "General".toList else f.department,
              udp_addr := sockaddr_in.zero, has_udp := false, last_seen := now },
          socket_to_campus := StdMap.assign st.socket_to_campus c f.campus_name },
       [Effect.log ("Campus authenticated: ".toList ++ f.campus_name ++ " (Dept: ".toList ++
          (if f.department = [] then "General".toList else f.department) ++ ")".toList),
        Effect.send c ("AUTH_OK:".toList ++ f.campus_name ++ [NL])],
       AuthOutcome.Authenticated f.campus_name
         (if f.department = [] then "General".toList else f.department)⟩ := by
  subst hf
  simp only [handle_campus_client_auth, if_neg hne, hc, hp, or_self, if_false, hcred,
    ne_eq, not_true_eq_false]

/-- The four ways the authentication step can end, with the state each leaves. -/
theorem auth_cases (st : ServerState) (c : Int) (pending now : Str) :
    let r := handle_campus_client_auth st c pending now
    let f := parse_auth (c_string (recv_buffer pending))
    (r.outcome = AuthOutcome.NoData ∧ r.state = st) ∨
    (r.outcome = AuthOutcome.MissingCredential ∧ r.state = st) ∨
    (r.outcome = AuthOutcome.InvalidCredential ∧ r.state = st) ∨
    (recv_buffer pending ≠ [] ∧ f.campus_name ≠ [] ∧ f.password ≠ [] ∧
      StdMap.find campus_credentials f.campus_name = some f.password) := by
  intro r f
  by_cases h1 : recv_buffer pending = []
  · left
    simp [r, handle_campus_client_auth, h1]
  · by_cases h2 : f.campus_name = []
    · right; left
      simp [r, f, handle_campus_client_auth, h1, h2] at h2 ⊢
      simp [h2]
    · by_cases h3 : f.password = []
      · right; left
        simp [r, f, handle_campus_client_auth, h1] at h3 ⊢
        simp [h3]
      · cases hfind : StdMap.find campus_credentials f.campus_name with
        | none =>
          right; right; left
          simp only [f] at h2 h3 hfind
          simp [r, handle_campus_client_auth, h1, h2, h3, hfind]
        | some secret =>
          by_cases h4 : secret = f.password
          · right; right; right
            exact ⟨h1, h2, h3, h4 ▸ rfl⟩
          · right; right; left
            simp only [f] at h2 h3 h4 hfind
            simp [r, handle_campus_client_auth, h1, h2, h3, hfind, h4]

/-- When the parsed `Dept` value is empty or absent, an accepted authentication installs the
department `General`. -/
theorem auth_accept_empty_dept (st : ServerState) (c : Int) (pending now I S : Str)
    (hne : recv_buffer pending ≠ [])
    (hf : parse_auth (c_string (recv_buffer pending)) = ⟨I, S, []⟩)
    (hcred : StdMap.find campus_credentials I = some S) :
    (handle_campus_client_auth st c pending now).outcome =
      AuthOutcome.Authenticated I "General".toList ∧
    (StdMap.find (handle_campus_client_auth st c pending now).state.connected_clients I).map
      ClientInfo.department = some "General".toList := by
  obtain ⟨hI0, hS0, _⟩ := campus_credentials_entry I S hcred
  rw [auth_accept st c pending now ⟨I, S, []⟩ hne hf hI0 hS0 hcred]
  refine ⟨by simp, ?_⟩
  simp only [StdMap.find_assign_self]
  simp

/-- A step that ends `Authenticated` took the accepting path. -/
theorem auth_authenticated_state (st : ServerState) (c : Int) (pending now I d : Str)
    (h : (handle_campus_client_auth st c pending now).outcome = AuthOutcome.Authenticated I d) :
    (handle_campus_client_auth st c pending now).state =
      { st with
        connected_clients := StdMap.assign st.connected_clients I
          { tcp_sock := c, campus := I, department := d,
            udp_addr := sockaddr_in.zero, has_udp := false, last_seen := now },
        socket_to_campus := StdMap.assign st.socket_to_campus c I } := by
  rcases auth_cases st c pending now with h1 | h1 | h1 | ⟨hne, hc, hp, hcred⟩
  · rw [h1.1] at h; cases h
  · rw [h1.1] at h; cases h
  · rw [h1.1] at h; cases h
  · rw [auth_accept st c pending now _ hne rfl hc hp hcred] at h ⊢
    simp only [AuthOutcome.Authenticated.injEq] at h
    obtain ⟨hI, hd⟩ := h
    simp only [hI, hd]

/-- A step that does not end `Authenticated` leaves the state as it was. -/
theorem auth_rejected_state (st : ServerState) (c : Int) (pending now : Str)
    (h : ∀ I d, (handle_campus_client_auth st c pending now).outcome ≠
      AuthOutcome.Authenticated I d) :
    (handle_campus_client_auth st c pending now).state = st := by
  rcases auth_cases st c pending now with h1 | h1 | h1 | ⟨hne, hc, hp, hcred⟩
  · exact h1.2
  · exact h1.2
  · exact h1.2
  · exact absurd (by rw [auth_accept st c pending now _ hne rfl hc hp hcred]) (h _ _)

/-- The client's frame for a provisioned identity and its secret is received whole up to the
department, and parses to that identity and secret. -/
theorem auth_frame_parsed (I S D : Str) (hcred : StdMap.find campus_credentials I = some S)
    (hD : ',' ∉ D) :
    recv_buffer (CampusClient.auth_frame I D S) ≠ [] ∧
    ∃ X, parse_auth (c_string (recv_buffer (CampusClient.auth_frame I D S))) = ⟨I, S, X⟩ := by
  obtain ⟨_, _, hIc, hSc, hIn, hSn, hIl, hSl⟩ := campus_credentials_entry I S hcred
  have hsplit : CampusClient.auth_frame I D S =
      ("Campus:".toList ++ I ++ ",Pass:".toList ++ S ++ ",Dept:".toList) ++ (D ++ [NL]) := by
    simp [CampusClient.auth_frame, List.append_assoc]
  have hlen : ("Campus:".toList ++ I ++ ",Pass:".toList ++ S ++ ",Dept:".toList).length
      ≤ BUFFER_SIZE - 1 := by
    simp only [List.length_append, hSl, BUFFER_SIZE]
    have h1 : "Campus:".toList.length = 7 := by decide
    have h2 : ",Pass:".toList.length = 6 := by decide
    have h3 : ",Dept:".toList.length = 6 := by decide
    omega
  have hnul : NUL ∉ "Campus:".toList ++ I ++ ",Pass:".toList ++ S ++ ",Dept:".toList := by
    simp only [List.mem_append, not_or]
    exact ⟨⟨⟨⟨by decide, hIn⟩, by decide⟩, hSn⟩, by decide⟩
  rw [hsplit, recv_buffer_append _ _ hlen]
  refine ⟨by simp, ?_⟩
  rw [c_string_append _ _ hnul]
  refine ⟨c_string ((D ++ [NL]).take
    (BUFFER_SIZE - 1 - ("Campus:".toList ++ I ++ ",Pass:".toList ++ S ++ ",Dept:".toList).length)), ?_⟩
  have hX : ',' ∉ c_string ((D ++ [NL]).take
      (BUFFER_SIZE - 1 - ("Campus:".toList ++ I ++ ",Pass:".toList ++ S ++ ",Dept:".toList).length)) := by
    apply not_mem_c_string_take
    simp only [List.mem_append, not_or]
    exact ⟨hD, by decide⟩
  rw [← parse_auth_client_order I S _ hIc hSc hX]
  congr 1
  simp [List.append_assoc]

/-! ## The claims -/

/-- C1 (counterexample): the campus name `Quetta` is not provisioned, and the frame
`Campus:Quetta,Pass:,Dept:CS` that names it with an empty `Pass` is answered with
`AUTH_FAIL:Missing credentials`, not with the InvalidCredential outcome. -/
theorem C1_counterexample_empty_pass :
    StdMap.find campus_credentials "Quetta".toList = none ∧
    (parse_auth (c_string (recv_buffer
      (CampusClient.auth_frame "Quetta".toList "CS".toList [])))).campus_name = "Quetta".toList ∧
    (handle_campus_client_auth ServerState.initial 4
      (CampusClient.auth_frame "Quetta".toList "CS".toList []) "t0".toList).outcome
        ≠ AuthOutcome.InvalidCredential ∧
    stream_writes (handle_campus_client_auth ServerState.initial 4
      (CampusClient.auth_frame "Quetta".toList "CS".toList []) "t0".toList).effects
        = [(4, "AUTH_FAIL:Missing credentials".toList ++ [NL])] := by
  decide

/-- C1 (amended): for every campus name `I` that is not a key of `campus_credentials` and every
non-empty received credential text whose parsed `Campus` is `I`, the connection is rejected and
the state is untouched: the reply is `AUTH_FAIL:Invalid credentials` (InvalidCredential) when
`I` and the parsed `Pass` are both non-empty, and `AUTH_FAIL:Missing credentials`
(MissingCredential) when either is empty or absent. -/
theorem C1_unknown_campus_rejected (st : ServerState) (c : Int) (pending now I : Str)
    (hne : recv_buffer pending ≠ [])
    (hname : (parse_auth (c_string (recv_buffer pending))).campus_name = I)
    (hI : StdMap.find campus_credentials I = none) :
    (handle_campus_client_auth st c pending now).state = st ∧
    (handle_campus_client_auth st c pending now).effects =
      [Effect.send c
        ((if I = [] ∨ (parse_auth (c_string (recv_buffer pending))).password = []
          then "AUTH_FAIL:Missing credentials".toList
          else "AUTH_FAIL:Invalid credentials".toList) ++ [NL]),
       Effect.close c] ∧
    (handle_campus_client_auth st c pending now).outcome =
      (if I = [] ∨ (parse_auth (c_string (recv_buffer pending))).password = []
        then AuthOutcome.MissingCredential else AuthOutcome.InvalidCredential) := by
  subst hname
  by_cases h : (parse_auth (c_string (recv_buffer pending))).campus_name = [] ∨
      (parse_auth (c_string (recv_buffer pending))).password = []
  · simp only [handle_campus_client_auth, if_neg hne, if_pos h]
    simp
  · simp only [handle_campus_client_auth, if_neg hne, if_neg h, hI]
    simp

/-- C1 (witness): the frame `Campus:Quetta,Pass:x,Dept:CS` on connection 4. -/
theorem C1_unknown_campus_rejected_witness :
    (handle_campus_client_auth ServerState.initial 4
      (CampusClient.auth_frame "Quetta".toList "CS".toList "x".toList) "t0".toList).outcome
        = AuthOutcome.InvalidCredential :=
  (C1_unknown_campus_rejected ServerState.initial 4
    (CampusClient.auth_frame "Quetta".toList "CS".toList "x".toList) "t0".toList "Quetta".toList
    (by decide) (by decide) (by decide)).2.2

/-- C2: for every identity `I` provisioned with secret `S`, every comma-free department `D`
(empty or not), every connection handle `c` and every registry state, handling a connection
whose first frame is the client's `Campus:I,Pass:S,Dept:D` ends `Authenticated`, writes to `c`
exactly the reply `AUTH_OK:I`, and leaves `connected_clients` with exactly one entry for `I`,
whose stream handle is `c` and whose campus field is `I`. -/
theorem C2_valid_credentials_register (st : ServerState) (c : Int) (I S D now : Str)
    (hwf : StdMap.WF st.connected_clients)
    (hcred : StdMap.find campus_credentials I = some S) (hD : ',' ∉ D) :
    (∃ dept, (handle_campus_client_auth st c (CampusClient.auth_frame I D S) now).outcome
      = AuthOutcome.Authenticated I dept) ∧
    stream_writes (handle_campus_client_auth st c (CampusClient.auth_frame I D S) now).effects
      = [(c, "AUTH_OK:".toList ++ I ++ [NL])] ∧
    StdMap.entries_for
      (handle_campus_client_auth st c (CampusClient.auth_frame I D S) now).state.connected_clients
      I = 1 ∧
    ∃ info, StdMap.find
      (handle_campus_client_auth st c (CampusClient.auth_frame I D S) now).state.connected_clients
      I = some info ∧ info.tcp_sock = c ∧ info.campus = I := by
  obtain ⟨hne, X, hparse⟩ := auth_frame_parsed I S D hcred hD
  obtain ⟨hI0, hS0, _⟩ := campus_credentials_entry I S hcred
  rw [auth_accept st c _ now ⟨I, S, X⟩ hne hparse hI0 hS0 hcred]
  refine ⟨⟨_, rfl⟩, rfl, ?_, ?_⟩
  · exact StdMap.entries_for_assign _ hwf _ _
  · exact ⟨_, StdMap.find_assign_self _ _ _, rfl, rfl⟩

/-- C2 (witness): Lahore with its secret and department `CS` on connection 4 of the initial
server. -/
theorem C2_valid_credentials_register_witness :
    stream_writes (handle_campus_client_auth ServerState.initial 4
      (CampusClient.auth_frame "Lahore".toList "CS".toList "NU-LHR-123".toList)
      "t0".toList).effects = [(4, "AUTH_OK:".toList ++ "Lahore".toList ++ [NL])] :=
  (C2_valid_credentials_register ServerState.initial 4 "Lahore".toList "NU-LHR-123".toList
    "CS".toList "t0".toList (by simp [StdMap.WF, ServerState.initial]) (by decide)
    (by decide)).2.1

/-- C3 (failing input): the newline-terminated frame `Campus:Lahore,Pass:NU-LHR-123,Dept:CS`
is accepted, and the same three fields sent as `Dept:CS,Campus:Lahore,Pass:NU-LHR-123` are
rejected as invalid, because the line terminator stays in the value of the last field. -/
theorem C3_field_order_changes_result :
    (handle_campus_client_auth ServerState.initial 4
      ("Campus:Lahore,Pass:NU-LHR-123,Dept:CS".toList ++ [NL]) "t0".toList).outcome
        = AuthOutcome.Authenticated "Lahore".toList ("CS".toList ++ [NL]) ∧
    (handle_campus_client_auth ServerState.initial 4
      ("Dept:CS,Campus:Lahore,Pass:NU-LHR-123".toList ++ [NL]) "t0".toList).outcome
        = AuthOutcome.InvalidCredential ∧
    parse_auth (c_string (recv_buffer ("Dept:CS,Campus:Lahore,Pass:NU-LHR-123".toList ++ [NL])))
      = ⟨"Lahore".toList, "NU-LHR-123".toList ++ [NL], "CS".toList⟩ := by
  decide

/-- C4 (failing input): the frame `Campus:Lahore,Pass:NU-LHR-123,Dept:` that the client sends
for an empty department authenticates, and the session installed has as department the line
terminator alone, not `General`. -/
theorem C4_empty_dept_frame_not_general :
    (handle_campus_client_auth ServerState.initial 4
      (CampusClient.auth_frame "Lahore".toList [] "NU-LHR-123".toList) "t0".toList).outcome
        = AuthOutcome.Authenticated "Lahore".toList [NL] ∧
    (StdMap.find (handle_campus_client_auth ServerState.initial 4
      (CampusClient.auth_frame "Lahore".toList [] "NU-LHR-123".toList)
      "t0".toList).state.connected_clients "Lahore".toList).map ClientInfo.department
        = some [NL] ∧
    [NL] ≠ "General".toList := by
  decide

/-- C5: for every registry state and every credential text on which authentication ends in
MissingCredential or InvalidCredential, both `connected_clients` and `socket_to_campus` are,
after the authentication step and after the whole of `handle_campus_client`, what they were
before. -/
theorem C5_rejected_auth_leaves_registry (send_ok : Int → Str → Bool) (st : ServerState)
    (c : Int) (pending now : Str) (events : List LoopEvent)
    (h : (handle_campus_client_auth st c pending now).outcome = AuthOutcome.MissingCredential ∨
      (handle_campus_client_auth st c pending now).outcome = AuthOutcome.InvalidCredential) :
    (handle_campus_client send_ok st c pending now events).1.connected_clients
      = st.connected_clients ∧
    (handle_campus_client send_ok st c pending now events).1.socket_to_campus
      = st.socket_to_campus ∧
    (handle_campus_client_auth st c pending now).state = st := by
  have hst : (handle_campus_client_auth st c pending now).state = st := by
    apply auth_rejected_state
    intro I d hout
    rcases h with h | h <;> rw [h] at hout <;> cases hout
  have hwhole : (handle_campus_client send_ok st c pending now events).1 = st := by
    unfold handle_campus_client
    rcases h with h | h <;> simp only [h, hst]
  exact ⟨by rw [hwhole], by rw [hwhole], hst⟩

/-- C5 (witness): a wrong password for Lahore on connection 5 of a server where Lahore is
already registered. -/
theorem C5_rejected_auth_leaves_registry_witness :
    (handle_campus_client (fun _ _ => true) lahore_twice 6
      (CampusClient.auth_frame "Lahore".toList "CS".toList "wrong".toList) "t2".toList
      [LoopEvent.idle]).1.connected_clients = lahore_twice.connected_clients :=
  (C5_rejected_auth_leaves_registry (fun _ _ => true) lahore_twice 6
    (CampusClient.auth_frame "Lahore".toList "CS".toList "wrong".toList) "t2".toList
    [LoopEvent.idle] (Or.inr (by decide))).1

/-- C6 (failing input): after Lahore authenticates on connection 4 and again on connection 5,
a state the server reaches, `socket_to_campus` still maps 4 to Lahore while the entry of
Lahore in `connected_clients` has stream handle 5: the two indices do not correspond. -/
theorem C6_reregistration_breaks_correspondence :
    Reachable lahore_twice ∧
    StdMap.find lahore_twice.socket_to_campus 4 = some "Lahore".toList ∧
    (StdMap.find lahore_twice.connected_clients "Lahore".toList).map ClientInfo.tcp_sock
      = some 5 ∧
    ¬ indices_correspond lahore_twice := by
  have h4 : StdMap.find lahore_twice.socket_to_campus 4 = some "Lahore".toList := by decide
  have h5 : (StdMap.find lahore_twice.connected_clients "Lahore".toList).map ClientInfo.tcp_sock
      = some 5 := by decide
  refine ⟨?_, h4, h5, ?_⟩
  · exact Reachable.step (Reachable.step Reachable.initial (Step.auth _ 4 lahore_frame "t0".toList))
      (Step.auth _ 5 lahore_frame "t1".toList)
  · intro hcorr
    obtain ⟨info, hfind, hsock⟩ := (hcorr 4 "Lahore".toList).mp h4
    rw [hfind] at h5
    simp only [Option.map_some', Option.some.injEq] at h5
    omega

/-- C7 (failing input): in the state where Lahore was registered on connection 4 and then
re-registered on connection 5, the disconnect cleanup of connection 4 removes the entry of
Lahore, whose stream handle is 5: `connected_clients` is left empty. -/
theorem C7_cleanup_removes_other_session :
    (StdMap.find lahore_twice.connected_clients "Lahore".toList).map ClientInfo.tcp_sock
      = some 5 ∧
    (handle_campus_client_cleanup lahore_twice 4).1.connected_clients = [] ∧
    StdMap.find (handle_campus_client_cleanup lahore_twice 4).1.connected_clients
      "Lahore".toList = none ∧
    (handle_campus_client_cleanup lahore_twice 4).1.socket_to_campus
      = [(5, "Lahore".toList)] := by
  decide

/-- C8: for every registry state in which identity `I` is present, after an authentication on
connection `c2` that ends `Authenticated` for `I`, `connected_clients` has exactly one entry
for `I`, has as many entries as before, and its entry for `I` has stream handle `c2`. -/
theorem C8_reregistration_replaces (st : ServerState) (c2 : Int) (pending now I dept : Str)
    (old : ClientInfo) (hwf : StdMap.WF st.connected_clients)
    (hpresent : StdMap.find st.connected_clients I = some old)
    (hauth : (handle_campus_client_auth st c2 pending now).outcome
      = AuthOutcome.Authenticated I dept) :
    StdMap.entries_for (handle_campus_client_auth st c2 pending now).state.connected_clients I
      = 1 ∧
    StdMap.size (handle_campus_client_auth st c2 pending now).state.connected_clients
      = StdMap.size st.connected_clients ∧
    ∃ info, StdMap.find (handle_campus_client_auth st c2 pending now).state.connected_clients I
      = some info ∧ info.tcp_sock = c2 := by
  rw [auth_authenticated_state st c2 pending now I dept hauth]
  refine ⟨?_, ?_, ?_⟩
  · exact StdMap.entries_for_assign _ hwf _ _
  · exact StdMap.size_assign_of_find _ hwf _ _ _ hpresent
  · exact ⟨_, StdMap.find_assign_self _ _ _, rfl⟩

/-- C8 (witness): Lahore, registered on connection 4, authenticates again on connection 5. -/
theorem C8_reregistration_replaces_witness :
    StdMap.entries_for lahore_twice.connected_clients "Lahore".toList = 1 ∧
    StdMap.size lahore_twice.connected_clients
      = StdMap.size (handle_campus_client_auth ServerState.initial 4 lahore_frame
          "t0".toList).state.connected_clients ∧
    ∃ info, StdMap.find lahore_twice.connected_clients "Lahore".toList = some info ∧
      info.tcp_sock = 5 :=
  C8_reregistration_replaces
    (handle_campus_client_auth ServerState.initial 4 lahore_frame "t0".toList).state 5
    lahore_frame "t1".toList "Lahore".toList ("CS".toList ++ [NL])
    ⟨4, "Lahore".toList, "CS".toList ++ [NL], sockaddr_in.zero, false, "t0".toList⟩
    (by decide) (by decide) (by decide)

/-- C9: for every source identity `A`, source department `D`, text `T` and every registry
state in which target `B` is registered with stream handle `h`, `route_campus_message`
performs exactly one stream write, to `h`, of the bytes `FROM:A:D:T` followed by the newline,
whether or not the write succeeds. -/
theorem C9_route_writes_frame (send_ok : Int → Str → Bool) (st : ServerState)
    (A D B T : Str) (info : ClientInfo) (h : Int)
    (hB : StdMap.find st.connected_clients B = some info) (hh : info.tcp_sock = h) :
    stream_writes (route_campus_message send_ok st A D B T).2 =
      [(h, "FROM:".toList ++ A ++ ":".toList ++ D ++ ":".toList ++ T ++ [NL])] := by
  subst hh
  unfold route_campus_message
  simp only [hB, send_tcp_message]
  split_ifs <;> rfl

/-- C9 (witness): Karachi of department `IT` routes `hello` to Lahore, registered on
connection 5. -/
theorem C9_route_writes_frame_witness :
    stream_writes (route_campus_message (fun _ _ => true) lahore_twice "Karachi".toList
      "IT".toList "Lahore".toList "hello".toList).2 =
      [(5, "FROM:Karachi:IT:hello".toList ++ [NL])] :=
  C9_route_writes_frame (fun _ _ => true) lahore_twice "Karachi".toList "IT".toList
    "Lahore".toList "hello".toList
    ⟨5, "Lahore".toList, "CS".toList ++ [NL], sockaddr_in.zero, false, "t1".toList⟩ 5
    (by decide) rfl

/-- C10: for every registry state and all arguments, whatever the result of the write, the
state after `route_campus_message` is the state before, and when the target is not registered
no stream write and no datagram send is performed. -/
theorem C10_route_leaves_state (send_ok : Int → Str → Bool) (st : ServerState)
    (A D B T : Str) :
    (route_campus_message send_ok st A D B T).1 = st ∧
    (StdMap.find st.connected_clients B = none →
      stream_writes (route_campus_message send_ok st A D B T).2 = [] ∧
      datagram_sends (route_campus_message send_ok st A D B T).2 = []) := by
  unfold route_campus_message
  cases hfind : StdMap.find st.connected_clients B with
  | none => exact ⟨rfl, fun _ => ⟨rfl, rfl⟩⟩
  | some info =>
    refine ⟨?_, fun hnone => Option.noConfusion hnone⟩
    simp only
    split_ifs <;> rfl

/-- C10 (witness): a message for Multan, which is not registered, on a server where only
Lahore is. -/
theorem C10_route_leaves_state_witness :
    (route_campus_message (fun _ _ => false) lahore_twice "Karachi".toList "IT".toList
      "Multan".toList "hello".toList).1 = lahore_twice ∧
    stream_writes (route_campus_message (fun _ _ => false) lahore_twice "Karachi".toList
      "IT".toList "Multan".toList "hello".toList).2 = [] :=
  ⟨(C10_route_leaves_state (fun _ _ => false) lahore_twice "Karachi".toList "IT".toList
      "Multan".toList "hello".toList).1,
   ((C10_route_leaves_state (fun _ _ => false) lahore_twice "Karachi".toList "IT".toList
      "Multan".toList "hello".toList).2 (by decide)).1⟩

/-! ## Lemmas on `find` and the `SEND:` frame -/

theorem takeWhile_ne_append_cons (c : Char) (b rest : Str) (h : c ∉ b) :
    (b ++ c :: rest).takeWhile (fun x => x ≠ c) = b := by
  have hb : ∀ a ∈ b, (fun x => decide (x ≠ c)) a = true := by
    intro a ha
    have : a ≠ c := fun e => h (e ▸ ha)
    simpa using this
  rw [List.takeWhile_append_of_pos hb]
  simp [List.takeWhile_cons]

/-- The first `c` at or after the end of the prefix `p` is found right after a `c`-free `b`. -/
theorem string_find_after (p b rest : Str) (c : Char) (h : c ∉ b) :
    string_find (p ++ (b ++ c :: rest)) c p.length = p.length + b.length := by
  unfold string_find
  rw [List.drop_left, takeWhile_ne_append_cons c b rest h]
  simp

theorem string_find_first (b rest : Str) (c : Char) (h : c ∉ b) :
    string_find (b ++ c :: rest) c 0 = b.length := by
  have := string_find_after [] b rest c h
  simpa using this

/-- What `recv` places in the buffer, read as a C string and stripped of line terminators,
has at most `BUFFER_SIZE - 1` bytes. -/
theorem stripped_length_le (pending : Str) :
    (((c_string (recv_buffer pending)).filter (fun x => x ≠ CR)).filter
      (fun x => x ≠ NL)).length ≤ BUFFER_SIZE - 1 := by
  have h1 := List.length_filter_le (fun x => decide (x ≠ NL))
    ((c_string (recv_buffer pending)).filter (fun x => x ≠ CR))
  have h2 := List.length_filter_le (fun x => decide (x ≠ CR)) (c_string (recv_buffer pending))
  have h3 : (c_string (recv_buffer pending)).length ≤ (recv_buffer pending).length :=
    (List.takeWhile_sublist _).length_le
  have h4 : (recv_buffer pending).length ≤ BUFFER_SIZE - 1 := by
    unfold recv_buffer
    exact List.length_take_le _ _
  omega

/-- The read loop resolves the source through the registry: while `socket_to_campus` maps
connection `c` to identity `I` and `connected_clients` holds for `I` an entry of department
`D`, every received frame that, stripped of line terminators, has the shape
`SEND:<target>:<dept>:<text>` (target non-empty and colon-free, dept colon-free, text
arbitrary) is handled as exactly the one call `route_campus_message(I, D, target, text)`;
nothing of the source is taken from the frame, and the text is everything after the second
colon of the payload. -/
theorem send_frame_routed_from_registry (send_ok : Int → Str → Bool) (st : ServerState) (c : Int)
    (pending I D target dept text : Str) (info : ClientInfo)
    (hsock : StdMap.find st.socket_to_campus c = some I)
    (hreg : StdMap.find st.connected_clients I = some info) (hD : info.department = D)
    (hshape : ((c_string (recv_buffer pending)).filter (fun x => x ≠ CR)).filter
      (fun x => x ≠ NL) = "SEND:".toList ++ target ++ ":".toList ++ dept ++ ":".toList ++ text)
    (ht : target ≠ []) (htc : ':' ∉ target) (hdc : ':' ∉ dept) :
    handle_campus_client_frame send_ok st c (recv_buffer pending) =
      route_campus_message send_ok st I D target text := by
  have hlen := stripped_length_le pending
  rw [hshape] at hlen
  simp only [List.length_append, BUFFER_SIZE] at hlen
  have h5 : "SEND:".toList.length = 5 := by decide
  have h1 : ":".toList.length = 1 := by decide
  have hpre : "SEND:".toList.isPrefixOf
      ("SEND:".toList ++ target ++ ":".toList ++ dept ++ ":".toList ++ text) = true := by
    simp [List.append_assoc]
  have hpayload : string_substr_from
      ("SEND:".toList ++ target ++ ":".toList ++ dept ++ ":".toList ++ text) 5
      = target ++ ':' :: (dept ++ ':' :: text) := by
    simp [string_substr_from, List.append_assoc]
  have hfirst : string_find (target ++ ':' :: (dept ++ ':' :: text)) ':' 0 = target.length :=
    string_find_first target _ ':' htc
  have hmod : (target.length + 1) % 2 ^ 64 = (target ++ [':']).length := by
    simp only [List.length_append, List.length_singleton]
    apply Nat.mod_eq_of_lt
    omega
  have hsecond : string_find (target ++ ':' :: (dept ++ ':' :: text)) ':'
      (target ++ [':']).length = target.length + 1 + dept.length := by
    have := string_find_after (target ++ [':']) dept text ':' hdc
    simpa [List.append_assoc] using this
  have hn1 : target.length ≠ npos := by unfold npos; omega
  have hn2 : target.length + 1 + dept.length ≠ npos := by unfold npos; omega
  have htarget : string_substr (target ++ ':' :: (dept ++ ':' :: text)) 0 target.length
      = target := by
    simp [string_substr]
  have htext : string_substr_from (target ++ ':' :: (dept ++ ':' :: text))
      (target.length + 1 + dept.length + 1) = text := by
    unfold string_substr_from
    have : target ++ ':' :: (dept ++ ':' :: text) = (target ++ [':'] ++ dept ++ [':']) ++ text := by
      simp [List.append_assoc]
    rw [this]
    have hl : target.length + 1 + dept.length + 1 = (target ++ [':'] ++ dept ++ [':']).length := by
      simp only [List.length_append, List.length_singleton]
    rw [hl, List.drop_left]
  unfold handle_campus_client_frame
  simp only [hshape, hpre, if_true, hpayload, hfirst, hmod, hsecond, hn1, hn2, ne_eq,
    not_false_eq_true, and_self, htarget, htext, hsock, hreg, hD, ht]

/-- An instance: Lahore, registered on connection 5 with department `CS` plus the line
terminator, sends `SEND:Lahore:X:hi:there`. -/
theorem send_frame_routed_from_registry_instance :
    handle_campus_client_frame (fun _ _ => true) lahore_twice 5
      (recv_buffer ("SEND:Lahore:X:hi:there".toList ++ [NL])) =
      route_campus_message (fun _ _ => true) lahore_twice "Lahore".toList
        ("CS".toList ++ [NL]) "Lahore".toList "hi:there".toList :=
  send_frame_routed_from_registry (fun _ _ => true) lahore_twice 5
    ("SEND:Lahore:X:hi:there".toList ++ [NL]) "Lahore".toList ("CS".toList ++ [NL])
    "Lahore".toList "X".toList "hi:there".toList
    ⟨5, "Lahore".toList, "CS".toList ++ [NL], sockaddr_in.zero, false, "t1".toList⟩
    (by decide) (by decide) rfl (by decide) (by decide) (by decide) (by decide)

/-- C11 (failing input): Lahore registers on connection 4 with department `CS` and then,
with connection 4 still open, on connection 5 with department `IT`. The session of
connection 4 was recorded at its registration with department `CS` (plus the line terminator
the authentication keeps), yet its frame `SEND:Karachi:HR:hi` is handled as the call
`route_campus_message(Lahore, IT.., Karachi, hi)`: Karachi is written `FROM:Lahore:IT..:hi`,
the department of the other connection. After the teardown of connection 4 the live session
of connection 5 routes with an empty department. -/
theorem C11_superseded_connection_routes_other_dept :
    (handle_campus_client_auth ServerState.initial 4
      (CampusClient.auth_frame "Lahore".toList "CS".toList "NU-LHR-123".toList)
      "t0".toList).outcome = AuthOutcome.Authenticated "Lahore".toList ("CS".toList ++ [NL]) ∧
    Reachable lahore_cs_then_it ∧
    handle_campus_client_frame (fun _ _ => true) lahore_cs_then_it 4
      (recv_buffer ("SEND:Karachi:HR:hi".toList ++ [NL])) =
      route_campus_message (fun _ _ => true) lahore_cs_then_it "Lahore".toList
        ("IT".toList ++ [NL]) "Karachi".toList "hi".toList ∧
    stream_writes (handle_campus_client_frame (fun _ _ => true) lahore_cs_then_it 4
      (recv_buffer ("SEND:Karachi:HR:hi".toList ++ [NL]))).2 =
      [(6, "FROM:Lahore:IT".toList ++ [NL] ++ ":hi".toList ++ [NL])] ∧
    stream_writes (route_campus_message (fun _ _ => true) lahore_cs_then_it "Lahore".toList
      ("CS".toList ++ [NL]) "Karachi".toList "hi".toList).2 =
      [(6, "FROM:Lahore:CS".toList ++ [NL] ++ ":hi".toList ++ [NL])] ∧
    stream_writes (handle_campus_client_frame (fun _ _ => true)
      (handle_campus_client_cleanup lahore_cs_then_it 4).1 5
      (recv_buffer ("SEND:Karachi:HR:hi".toList ++ [NL]))).2 =
      [(6, "FROM:Lahore::hi".toList ++ [NL])] := by
  refine ⟨by decide, ?_, by decide, by decide, by decide, by decide⟩
  exact Reachable.step (Reachable.step (Reachable.step Reachable.initial
    (Step.auth _ 4 _ "t0".toList)) (Step.auth _ 5 _ "t1".toList)) (Step.auth _ 6 _ "t2".toList)

/-- A line free of NUL, CR and LF that fits the buffer with its terminator is read back
unchanged once the terminator is stripped. -/
theorem stripped_clean_line (m : Str) (hnul : NUL ∉ m) (hcr : CR ∉ m) (hnl : NL ∉ m)
    (hlen : m.length + 1 ≤ BUFFER_SIZE - 1) :
    ((c_string (recv_buffer (m ++ [NL]))).filter (fun x => x ≠ CR)).filter (fun x => x ≠ NL)
      = m := by
  have hrecv : recv_buffer (m ++ [NL]) = m ++ [NL] := by
    unfold recv_buffer
    apply List.take_of_length_le
    simpa using hlen
  have hc : c_string (m ++ [NL]) = m ++ [NL] := by
    rw [c_string_append m [NL] hnul]
    rfl
  rw [hrecv, hc]
  have h1 : (m ++ [NL]).filter (fun x => x ≠ CR) = m ++ [NL] := by
    rw [List.filter_eq_self]
    intro a ha
    have : a ≠ CR := by
      rcases List.mem_append.mp ha with h | h
      · exact fun e => hcr (e ▸ h)
      · simp only [List.mem_singleton] at h
        rw [h]; decide
    simpa using this
  rw [h1, List.filter_append]
  have h2 : m.filter (fun x => x ≠ NL) = m := by
    rw [List.filter_eq_self]
    intro a ha
    have : a ≠ NL := fun e => hnl (e ▸ ha)
    simpa using this
  rw [h2]
  simp

/-! ## Lemmas on in-place updates -/

namespace StdMap

variable {K V : Type}

theorem find_modify_self [DecidableEq K] (m : StdMap K V) (k : K) (f : V → V) (v : V)
    (h : find m k = some v) : find (modify m k f) k = some (f v) := by
  induction m with
  | nil => simp [find] at h
  | cons e rest ih =>
    obtain ⟨k', v'⟩ := e
    by_cases hk : k' = k
    · simp only [find, hk, if_true, Option.some.injEq] at h
      simp [modify, find, hk, h]
    · simp only [find, hk, if_false] at h
      simp [modify, find, hk, ih h]

theorem find_modify_other [DecidableEq K] (m : StdMap K V) (k k2 : K) (f : V → V)
    (hne : k2 ≠ k) : find (modify m k f) k2 = find m k2 := by
  induction m with
  | nil => rfl
  | cons e rest ih =>
    obtain ⟨k', v'⟩ := e
    by_cases hk : k' = k
    · have : k' ≠ k2 := fun e => hne (e ▸ hk)
      simp [modify, find, hk, Ne.symm hne]
    · by_cases hk2 : k' = k2
      · simp [modify, find, hk, hk2, hne]
      · simp [modify, find, hk, hk2, ih]

theorem keys_modify [DecidableEq K] (m : StdMap K V) (k : K) (f : V → V) :
    (modify m k f).map Prod.fst = m.map Prod.fst := by
  induction m with
  | nil => rfl
  | cons e rest ih =>
    obtain ⟨k', v'⟩ := e
    by_cases hk : k' = k
    · simp [modify, hk]
    · simp [modify, hk, ih]

theorem assign_eq_modify [DecidableEq K] [LinearOrder K] (m : StdMap K V) (hwf : WF m)
    (k : K) (f : V → V) (v : V) (h : find m k = some v) :
    assign m k (f v) = modify m k f := by
  induction m with
  | nil => simp [find] at h
  | cons e rest ih =>
    obtain ⟨k', v'⟩ := e
    have hlt := wf_head_lt hwf
    simp only [assign]
    split_ifs with h1 h2
    · exfalso
      have : find ((k', v') :: rest) k = none := by
        apply find_eq_none_of_lt
        intro a ha
        simp only [List.map_cons, List.mem_cons] at ha
        rcases ha with rfl | ha
        · exact h1
        · exact lt_trans h1 (hlt a ha)
      rw [this] at h
      exact Option.noConfusion h
    · have hne : k' ≠ k := ne_of_lt h2
      simp only [find, hne, if_false] at h
      simp [modify, hne, ih (wf_tail hwf) h]
    · have hk : k' = k := le_antisymm (not_lt.mp h1) (not_lt.mp h2)
      simp only [find, hk, if_true, Option.some.injEq] at h
      simp [modify, hk, h]

end StdMap

/-- C12: for every registry state, identity `I` and endpoint `e`, a datagram that the server
reads as `HEARTBEAT:I` from `e` leaves the whole state unchanged when `I` is not registered,
and when `I` is registered sets the datagram endpoint of the session of `I` to `e`, its
`has_udp` to true and its `last_seen` to the current time, keeping its stream handle, campus
and department, every other session, the list of registered identities, `socket_to_campus`
and the running flag; on a well-formed registry the new state is the one the reference
definition `onHeartbeat_reference` gives. -/
theorem C12_heartbeat_updates_only_sender (st : ServerState) (received : Str) (e : sockaddr_in)
    (now I : Str)
    (hmsg : c_string (received.take (BUFFER_SIZE - 1)) = "HEARTBEAT:".toList ++ I) :
    (StdMap.find st.connected_clients I = none →
      (udp_server_datagram st received e now).1 = st) ∧
    (∀ info, StdMap.find st.connected_clients I = some info →
      StdMap.find (udp_server_datagram st received e now).1.connected_clients I
        = some { tcp_sock := info.tcp_sock, campus := info.campus,
                 department := info.department, udp_addr := e, has_udp := true,
                 last_seen := now } ∧
      (∀ J, J ≠ I →
        StdMap.find (udp_server_datagram st received e now).1.connected_clients J
          = StdMap.find st.connected_clients J) ∧
      (udp_server_datagram st received e now).1.connected_clients.map Prod.fst
        = st.connected_clients.map Prod.fst ∧
      (udp_server_datagram st received e now).1.socket_to_campus = st.socket_to_campus ∧
      (udp_server_datagram st received e now).1.server_running = st.server_running) ∧
    (StdMap.WF st.connected_clients →
      (udp_server_datagram st received e now).1 = onHeartbeat_reference st I e now) := by
  have hne : received.take (BUFFER_SIZE - 1) ≠ [] := by
    intro h0
    rw [h0] at hmsg
    simp [c_string] at hmsg
  have hpre : "HEARTBEAT:".toList.isPrefixOf ("HEARTBEAT:".toList ++ I) = true := by simp
  have hname : string_substr_from ("HEARTBEAT:".toList ++ I) 10 = I := by
    simp [string_substr_from]
  have hstep : udp_server_datagram st received e now =
      match StdMap.find st.connected_clients I with
      | some _ =>
        ({ st with
            connected_clients := StdMap.modify st.connected_clients I
              (fun info => { info with udp_addr := e, has_udp := true, last_seen := now }) },
         [Effect.log ("Heartbeat from ".toList ++ I)])
      | none => (st, []) := by
    unfold udp_server_datagram
    simp only [if_neg hne, hmsg, hpre, if_true, hname]
  refine ⟨?_, ?_, ?_⟩
  · intro hnone
    rw [hstep, hnone]
  · intro info hsome
    rw [hstep, hsome]
    refine ⟨?_, ?_, ?_, rfl, rfl⟩
    · exact StdMap.find_modify_self _ _ _ _ hsome
    · intro J hJ
      exact StdMap.find_modify_other _ _ _ _ hJ
    · exact StdMap.keys_modify _ _ _
  · intro hwf
    rw [hstep]
    unfold onHeartbeat_reference
    cases hfind : StdMap.find st.connected_clients I with
    | none => rfl
    | some info =>
      simp only
      rw [StdMap.assign_eq_modify _ hwf I
        (fun info => { info with udp_addr := e, has_udp := true, last_seen := now }) info hfind]

/-- C12 (witness): the heartbeat of Lahore, registered on connection 5, from port 4000. -/
theorem C12_heartbeat_updates_only_sender_witness :
    StdMap.find (udp_server_datagram lahore_twice "HEARTBEAT:Lahore".toList ⟨1, 4000⟩
      "t2".toList).1.connected_clients "Lahore".toList
      = some ⟨5, "Lahore".toList, "CS".toList ++ [NL], ⟨1, 4000⟩, true, "t2".toList⟩ :=
  ((C12_heartbeat_updates_only_sender lahore_twice "HEARTBEAT:Lahore".toList ⟨1, 4000⟩
    "t2".toList "Lahore".toList (by decide)).2.1
    ⟨5, "Lahore".toList, "CS".toList ++ [NL], sockaddr_in.zero, false, "t1".toList⟩
    (by decide)).1

/-! ## Lemmas on the admin console -/

theorem datagram_sends_append (xs ys : List Effect) :
    datagram_sends (xs ++ ys) = datagram_sends xs ++ datagram_sends ys := by
  induction xs with
  | nil => rfl
  | cons x xs ih => cases x <;> simp [datagram_sends, ih]

theorem stream_writes_append (xs ys : List Effect) :
    stream_writes (xs ++ ys) = stream_writes xs ++ stream_writes ys := by
  induction xs with
  | nil => rfl
  | cons x xs ih => cases x <;> simp [stream_writes, ih]

theorem datagram_sends_broadcast (msg : Str) (m : StdMap Str ClientInfo) :
    datagram_sends (broadcast_sends msg m) =
      (m.filter (fun entry => entry.2.has_udp)).map (fun entry => (entry.2.udp_addr, msg)) := by
  induction m with
  | nil => rfl
  | cons entry rest ih =>
    obtain ⟨name, info⟩ := entry
    by_cases h : info.has_udp = true
    · simp [broadcast_sends, datagram_sends, h, ih]
    · simp [broadcast_sends, h, ih]

theorem stream_writes_broadcast (msg : Str) (m : StdMap Str ClientInfo) :
    stream_writes (broadcast_sends msg m) = [] := by
  induction m with
  | nil => rfl
  | cons entry rest ih =>
    obtain ⟨name, info⟩ := entry
    by_cases h : info.has_udp = true
    · simp [broadcast_sends, stream_writes, h, ih]
    · simp [broadcast_sends, h, ih]

theorem broadcast_count_eq (m : StdMap Str ClientInfo) :
    broadcast_count m = (m.filter (fun entry => entry.2.has_udp)).length := by
  induction m with
  | nil => rfl
  | cons entry rest ih =>
    obtain ⟨name, info⟩ := entry
    by_cases h : info.has_udp = true
    · simp [broadcast_count, h, ih]
    · simp [broadcast_count, h, ih]

theorem datagram_sends_prompt (st : ServerState) : datagram_sends (admin_prompt st) = [] := by
  unfold admin_prompt
  split_ifs <;> rfl

theorem stream_writes_prompt (st : ServerState) : stream_writes (admin_prompt st) = [] := by
  unfold admin_prompt
  split_ifs <;> rfl

/-- The console pass for `broadcast:<text>` with a non-empty text. -/
theorem admin_command_broadcast (st : ServerState) (text : Str) (hne : text ≠ []) :
    admin_command st ("broadcast:".toList ++ text) =
      (st, broadcast_sends text st.connected_clients ++
        [Effect.log ("Broadcast sent to ".toList ++
            (Nat.repr (broadcast_count st.connected_clients)).toList ++
            " campuses: ".toList ++ text),
         Effect.print ("Broadcast sent to ".toList ++
            (Nat.repr (broadcast_count st.connected_clients)).toList ++
            " campuses.".toList ++ [NL])] ++ admin_prompt st) := by
  have h1 : "broadcast:".toList ++ text ≠ "list".toList := by simp
  have h2 : "broadcast:".toList.isPrefixOf ("broadcast:".toList ++ text) = true := by simp
  have h3 : string_substr_from ("broadcast:".toList ++ text) 10 = text := by
    simp [string_substr_from]
  unfold admin_command
  simp only [if_neg h1, h2, if_true, h3, if_neg hne]

/-- C13: for every non-empty text and every registry state, of whose sessions `M` have
`has_udp` set, the command `broadcast:<text>` performs exactly `M` datagram sends, one to the
recorded endpoint of each session with `has_udp` set, in registry order, and none to any
other, each carrying the text verbatim; it performs no stream write, reports the count `M`,
and leaves the state unchanged. -/
theorem C13_broadcast_reaches_udp_sessions (st : ServerState) (text : Str) (M : Nat)
    (hne : text ≠ [])
    (hM : (st.connected_clients.filter (fun entry => entry.2.has_udp)).length = M) :
    (admin_command st ("broadcast:".toList ++ text)).1 = st ∧
    datagram_sends (admin_command st ("broadcast:".toList ++ text)).2 =
      (st.connected_clients.filter (fun entry => entry.2.has_udp)).map
        (fun entry => (entry.2.udp_addr, text)) ∧
    (datagram_sends (admin_command st ("broadcast:".toList ++ text)).2).length = M ∧
    stream_writes (admin_command st ("broadcast:".toList ++ text)).2 = [] ∧
    Effect.print ("Broadcast sent to ".toList ++ (Nat.repr M).toList ++
      " campuses.".toList ++ [NL]) ∈ (admin_command st ("broadcast:".toList ++ text)).2 := by
  have hsends : datagram_sends (admin_command st ("broadcast:".toList ++ text)).2 =
      (st.connected_clients.filter (fun entry => entry.2.has_udp)).map
        (fun entry => (entry.2.udp_addr, text)) := by
    rw [admin_command_broadcast st text hne]
    simp only [datagram_sends_append, datagram_sends_broadcast, datagram_sends_prompt]
    simp [datagram_sends]
  refine ⟨?_, hsends, ?_, ?_, ?_⟩
  · rw [admin_command_broadcast st text hne]
  · rw [hsends, List.length_map, hM]
  · rw [admin_command_broadcast st text hne]
    simp only [stream_writes_append, stream_writes_broadcast, stream_writes_prompt]
    simp [stream_writes]
  · rw [admin_command_broadcast st text hne, broadcast_count_eq, hM]
    simp

/-- C13 (witness): the notice `notice` on a server with Lahore, whose heartbeat came from
port 4000, and Multan, which sent none. -/
theorem C13_broadcast_reaches_udp_sessions_witness :
    datagram_sends (admin_command
      ⟨[("Lahore".toList, ⟨5, "Lahore".toList, "CS".toList, ⟨1, 4000⟩, true, "t2".toList⟩),
        ("Multan".toList, ⟨6, "Multan".toList, "IT".toList, sockaddr_in.zero, false,
          "t1".toList⟩)],
       [(5, "Lahore".toList), (6, "Multan".toList)], true⟩
      ("broadcast:".toList ++ "notice".toList)).2 = [(⟨1, 4000⟩, "notice".toList)] :=
  (C13_broadcast_reaches_udp_sessions
    ⟨[("Lahore".toList, ⟨5, "Lahore".toList, "CS".toList, ⟨1, 4000⟩, true, "t2".toList⟩),
      ("Multan".toList, ⟨6, "Multan".toList, "IT".toList, sockaddr_in.zero, false,
        "t1".toList⟩)],
     [(5, "Lahore".toList), (6, "Multan".toList)], true⟩
    "notice".toList 1 (by decide) (by decide)).2.1

/-- C14: for every server state, the command `broadcast:` with an empty text performs no
datagram send and no stream write, prints the error line, and leaves the registry and the
running flag unchanged. -/
theorem C14_empty_broadcast_rejected (st : ServerState) :
    (admin_command st "broadcast:".toList).1 = st ∧
    (admin_command st "broadcast:".toList).2 =
      [Effect.print ("Error: Broadcast message cannot be empty.".toList ++ [NL])] ∧
    datagram_sends (admin_command st "broadcast:".toList).2 = [] ∧
    stream_writes (admin_command st "broadcast:".toList).2 = [] := by
  have h : admin_command st "broadcast:".toList =
      (st, [Effect.print ("Error: Broadcast message cannot be empty.".toList ++ [NL])]) := by
    unfold admin_command
    simp [string_substr_from]
  rw [h]
  exact ⟨rfl, rfl, rfl, rfl⟩

/-- C15: for every server state, the command `quit` yields the state with the running flag
false and both `connected_clients` and `socket_to_campus` empty, so no identity is found in
the registry afterwards, and a second `quit` gives the same state. -/
theorem C15_quit_clears_and_is_idempotent (st : ServerState) :
    (admin_command st "quit".toList).1.server_running = false ∧
    (admin_command st "quit".toList).1.connected_clients = [] ∧
    (admin_command st "quit".toList).1.socket_to_campus = [] ∧
    (∀ I, StdMap.find (admin_command st "quit".toList).1.connected_clients I = none) ∧
    (admin_command (admin_command st "quit".toList).1 "quit".toList).1
      = (admin_command st "quit".toList).1 := by
  have h : ∀ s : ServerState, (admin_command s "quit".toList).1 = ⟨[], [], false⟩ := by
    intro s
    unfold admin_command
    simp
  rw [h, h]
  exact ⟨rfl, rfl, rfl, fun _ => rfl, rfl⟩

end CampusServer

namespace CampusClient

open CampusServer

/-- C16 (failing input): the frame `FROM:Karachi:IT:hello` that `route_campus_message` writes
to Lahore is not decoded by the parser of the client at all (it asks for a third colon and
prints the raw frame), and for the text `hi:there` the parser yields as message only `there`
with the line terminator, not the text. -/
theorem C16_client_does_not_decode_frame :
    stream_writes (route_campus_message (fun _ _ => true) lahore_twice "Karachi".toList
      "IT".toList "Lahore".toList "hello".toList).2
      = [(5, "FROM:Karachi:IT:hello".toList ++ [NL])] ∧
    receive_tcp_message ("FROM:Karachi:IT:hello".toList ++ [NL]) = none ∧
    stream_writes (route_campus_message (fun _ _ => true) lahore_twice "Karachi".toList
      "IT".toList "Lahore".toList "hi:there".toList).2
      = [(5, "FROM:Karachi:IT:hi:there".toList ++ [NL])] ∧
    receive_tcp_message ("FROM:Karachi:IT:hi:there".toList ++ [NL])
      = some ("Karachi".toList, "IT".toList, "there".toList ++ [NL]) := by
  decide

end CampusClient
